import Mathlib

/-
Verification of the flight-route engine of Little Navmap
(src/route/routecontroller.cpp), following its natural-language
specification.  The development shallowly embeds the route model, the
route-calculation acceptance logic, the undo/redo snapshot machinery and
the structural-edit operations of RouteController.  Machine floats are
modelled by rationals, Qt lists by Lean lists, and external collaborators
(navigation database, route finder, geometry library) are passed in as
explicit context functions, as the specification itself recommends.
-/

/-- Geographic position (latitude/longitude pair), modelled abstractly as a
pair of rationals.  The geometry library computing great-circle distances is
external to the repository, so distances are supplied by a context
function. -/
abbrev GeoPos := ℚ × ℚ

/-- Procedure-membership tag of a route leg
(enum in src: NONE, SID, SID_TRANSITION, STAR, STAR_TRANSITION, APPROACH,
TRANSITION, MISSED). -/
inductive ProcType where
  | NONE
  | SID
  | SID_TRANSITION
  | STAR
  | STAR_TRANSITION
  | APPROACH
  | TRANSITION
  | MISSED
deriving DecidableEq, Fintype

/-- The tag belongs to a departure procedure (SID or SID transition). -/
def ProcType.isDeparture : ProcType → Bool
  | .SID => true
  | .SID_TRANSITION => true
  | _ => false

/-- The tag belongs to an arrival procedure (STAR, transition, approach or
missed approach). -/
def ProcType.isArrival : ProcType → Bool
  | .STAR => true
  | .STAR_TRANSITION => true
  | .APPROACH => true
  | .TRANSITION => true
  | .MISSED => true
  | _ => false

/-- One flight plan entry (atools FlightplanEntry): identifier, stored
incoming-airway name, position, whether it denotes an airport, and the
no-save flag marking procedure-generated entries that are filtered out of
undo snapshots and saved plans. -/
structure FlightplanEntry where
  ident : String
  airway : String
  pos : GeoPos
  isAirport : Bool
  noSave : Bool
deriving DecidableEq

instance : Inhabited FlightplanEntry := ⟨⟨"", "", (0, 0), false, false⟩⟩

/-- The flight plan value (atools Flightplan): the ordered entry sequence
plus the departure/destination metadata relevant to the route engine. -/
structure Flightplan where
  entries : List FlightplanEntry
  departureIdent : String
  destinationIdent : String
deriving DecidableEq

/-- One resolved route leg (RouteLeg): identifier, position, whether the
resolved object is an airport, and the procedure-membership tag. -/
structure RouteLeg where
  ident : String
  pos : GeoPos
  isAirport : Bool
  procType : ProcType
deriving DecidableEq

instance : Inhabited RouteLeg := ⟨⟨"", (0, 0), false, .NONE⟩⟩

/-- The route state owned by RouteController: the flight plan and the
resolved leg sequence (Route), kept positionally aligned. -/
structure RouteState where
  flightplan : Flightplan
  legs : List RouteLeg
deriving DecidableEq

/-- RouteController::eraseAirway (routecontroller.cpp:2247): clears the
stored airway name of the flight-plan entry at the given row, guarded by
the bounds check 0 <= row < entries.size(); out of range it does
nothing. -/
def eraseAirway (row : ℤ) (fp : Flightplan) : Flightplan :=
  if 0 ≤ row ∧ row < (fp.entries.length : ℤ) then
    let cleared := { fp.entries.getD row.toNat default with airway := "" }
    { fp with entries := fp.entries.set row.toNat cleared }
  else fp

/-- Flightplan::removeNoSaveEntries (atools, not under src/).
Modelled from the spec: procedure-only entries are filtered out of the
plan, since procedures are regenerated from properties rather than stored
verbatim. -/
def removeNoSaveEntries (fp : Flightplan) : Flightplan :=
  { fp with entries := fp.entries.filter (fun e => !e.noSave) }

/-- Building one route leg from a flight-plan entry
(RouteLeg::createFromDatabaseByEntry, atools).  Modelled from the spec:
entry-built legs are free enroute legs, so the procedure tag is NONE;
database resolution beyond ident/position/airport kind is abstracted
away. -/
def legOfEntry (e : FlightplanEntry) : RouteLeg :=
  ⟨e.ident, e.pos, e.isAirport, .NONE⟩

/-- Route::createRouteLegsFromFlightplan (atools, not under src/).
Modelled from the spec: the Route is recreated from its FlightplanEntry
sequence, one leg per entry. -/
def createRouteLegsFromFlightplan (st : RouteState) : RouteState :=
  { st with legs := st.flightplan.entries.map legOfEntry }

/-- Bit mask proc::PROCEDURE_DEPARTURE, modelled as the list of matched
tags. -/
def PROCEDURE_DEPARTURE : List ProcType := [.SID, .SID_TRANSITION]

/-- Bit mask proc::PROCEDURE_STAR_ALL. -/
def PROCEDURE_STAR_ALL : List ProcType := [.STAR, .STAR_TRANSITION]

/-- Bit mask proc::PROCEDURE_ARRIVAL (approach, transition and missed). -/
def PROCEDURE_ARRIVAL : List ProcType := [.APPROACH, .TRANSITION, .MISSED]

/-- Bit mask proc::PROCEDURE_ARRIVAL_ALL (STAR plus arrival). -/
def PROCEDURE_ARRIVAL_ALL : List ProcType := PROCEDURE_STAR_ALL ++ PROCEDURE_ARRIVAL

/-- Bit mask proc::PROCEDURE_ALL. -/
def PROCEDURE_ALL : List ProcType := PROCEDURE_DEPARTURE ++ PROCEDURE_ARRIVAL_ALL

/-- Clears the stored airway name of the first pair of a leg/entry list;
used when a removed procedure range made a kept leg adjacent to a new
predecessor. -/
def clearFirstAirway : List (RouteLeg × FlightplanEntry) → List (RouteLeg × FlightplanEntry)
  | [] => []
  | p :: r =>
    let cleared := { p.2 with airway := "" }
    (p.1, cleared) :: r

/-- Drops the leg/entry pairs whose leg carries a tag in the mask; the
first kept pair after each dropped one gets its airway name cleared (the
adjacency there is new). -/
def removeProcPairs (mask : List ProcType) :
    List (RouteLeg × FlightplanEntry) → List (RouteLeg × FlightplanEntry)
  | [] => []
  | p :: rest =>
    if mask.contains p.1.procType then clearFirstAirway (removeProcPairs mask rest)
    else p :: removeProcPairs mask rest

/-- Route::removeProcedureLegs (atools, not under src/).  Modelled from
the spec: deletes all legs whose procedure-membership tag matches the
mask together with their no-save flight-plan entries, collapses the gap,
and clears the airway name of the free leg adjoining a removal point. -/
def removeProcedureLegs (mask : List ProcType) (st : RouteState) : RouteState :=
  let kept := removeProcPairs mask (st.legs.zip st.flightplan.entries)
  { flightplan := { st.flightplan with entries := kept.map Prod.snd },
    legs := kept.map Prod.fst }

/-- The mask contributed by one selected index in
RouteController::affectedProcedures (routecontroller.cpp:3742): index 0
affects the departure procedure, an index at or past the last leg affects
all arrival procedures, and an in-range index adds the mask of the tag of
the leg found there. -/
def tagMask : ProcType → List ProcType
  | .SID_TRANSITION => [.SID_TRANSITION]
  | .SID => PROCEDURE_DEPARTURE
  | .STAR_TRANSITION => [.STAR_TRANSITION]
  | .STAR => PROCEDURE_STAR_ALL
  | .TRANSITION => [.TRANSITION]
  | .APPROACH => PROCEDURE_ARRIVAL
  | .MISSED => PROCEDURE_ARRIVAL
  | .NONE => []

/-- Mask of procedures affected by touching one row, per the body of the
loop in RouteController::affectedProcedures. -/
def maskForIndex (st : RouteState) (i : ℤ) : List ProcType :=
  (if i = 0 then PROCEDURE_DEPARTURE else []) ++
    (if (st.legs.length : ℤ) - 1 ≤ i then PROCEDURE_ARRIVAL_ALL else []) ++
    (if 0 ≤ i ∧ i < (st.legs.length : ℤ) then
      tagMask (st.legs.getD i.toNat default).procType
    else [])

/-- RouteController::affectedProcedures (routecontroller.cpp:3742): union
of the masks of all touched rows.  The final widening for named-but-empty
SID/STAR structures (routecontroller.cpp:3784) reads procedure objects
outside this model and can only enlarge the mask; it is not represented. -/
def affectedProcedures (st : RouteState) (indexes : List ℤ) : List ProcType :=
  indexes.foldl (fun acc i => acc ++ maskForIndex st i) []

/-- RouteController::routeToFlightPlan (routecontroller.cpp:2847): copies
the route legs back into the flight-plan metadata.  An empty route clears
the plan; otherwise the departure and destination idents are set from the
first and last leg when those resolve to airports and cleared when they do
not.  Parking, title and description metadata are outside the model. -/
def routeToFlightPlan (st : RouteState) : RouteState :=
  if st.legs.isEmpty then
    { st with flightplan := { entries := [], departureIdent := "", destinationIdent := "" } }
  else
    let firstLeg := st.legs.headD default
    let lastLeg := st.legs.getLastD default
    let dep := if firstLeg.isAirport then firstLeg.ident else ""
    let dest := if lastLeg.isAirport then lastLeg.ident else ""
    { st with flightplan :=
        { st.flightplan with departureIdent := dep, destinationIdent := dest } }

/-- External, UI- and database-dependent inputs of the route-controller
operations, passed explicitly: the route finder, the great-circle distance
function, the flight-plan entry builder, the airway-name lookup, the
procedure regeneration from plan properties, and the start-position
query outcomes used by updateStartPositionBestRunway. -/
structure RouteContext where
  finderFound : GeoPos → GeoPos → ℤ → Bool
  finderRoute : GeoPos → GeoPos → ℤ → List (ℤ × ℤ)
  finderDistance : GeoPos → GeoPos → ℤ → ℚ
  dist : GeoPos → GeoPos → ℚ
  build : ℤ → FlightplanEntry
  airwayName : ℤ → String
  procGenDeparture : Flightplan → List (FlightplanEntry × ProcType)
  procGenArrival : Flightplan → List (FlightplanEntry × ProcType)
  noParkingAndStart : Bool
  bestStartValid : Bool

/-- Route::hasValidDeparture (atools).  Modelled from the spec: the first
leg resolves to a valid airport. -/
def hasValidDeparture (st : RouteState) : Bool :=
  (st.legs.headD default).isAirport

/-- RouteController::updateStartPositionBestRunway
(routecontroller.cpp:3707): when the route has a valid departure airport
and either force is set or no parking/start position is present, and the
airport query yields a valid start position, the departure start is reset
and the plan metadata rewritten through routeToFlightPlan; otherwise
nothing happens.  The start-position value itself is outside the model. -/
def updateStartPositionBestRunway (ctx : RouteContext) (force : Bool) (st : RouteState) :
    RouteState :=
  if hasValidDeparture st ∧ (force ∨ ctx.noParkingAndStart) ∧ ctx.bestStartValid then
    routeToFlightPlan st
  else st

/-- Route::updateAll (atools, not under src/).  Modelled from the spec:
recomputes each leg course/distance, the total distance and the active
leg — all derived values outside this model, so the observable state is
unchanged. -/
def updateAll (st : RouteState) : RouteState := st

/-- Route::updateAirwaysAndAltitude (atools, not under src/).  Modelled
from the spec: re-resolves airway objects and minimum altitudes from the
stored airway names and optionally adjusts cruise altitude and route type;
entry sequence and airway names are not altered. -/
def updateAirwaysAndAltitude (_adjustAltitude _adjustType : Bool) (st : RouteState) :
    RouteState := st

/-- Route::updateActiveLegAndPos (atools): recomputes the derived active
leg, outside the model. -/
def updateActiveLegAndPos (st : RouteState) : RouteState := st

/-- RouteController::updateFlightplanFromWidgets
(routecontroller.cpp:2913): copies plan type and cruise altitude from the
UI widgets, fields outside the model. -/
def updateFlightplanFromWidgets (st : RouteState) : RouteState := st

/-- Marks a generated procedure entry as no-save.  Modelled from the spec:
procedure-only entries are regenerated from properties and never stored
verbatim, so the builder flags them accordingly. -/
def markNoSave (p : FlightplanEntry × ProcType) : FlightplanEntry :=
  { p.1 with noSave := true }

/-- Route leg generated for a procedure entry, carrying its procedure
tag. -/
def procLegOf (p : FlightplanEntry × ProcType) : RouteLeg :=
  ⟨p.1.ident, p.1.pos, p.1.isAirport, p.2⟩

/-- Splices a departure range right after the first element and an
arrival range right before the last element, per the contiguity rules of
the route model. -/
def spliceProcs {α : Type} (dep arr : List α) (es : List α) : List α :=
  match es with
  | [] => []
  | e0 :: rest =>
    if rest.isEmpty then e0 :: (dep ++ arr)
    else e0 :: (dep ++ rest.dropLast ++ arr ++ rest.getLast?.toList)

/-- RouteController::loadProceduresFromFlightplan
(routecontroller.cpp:834): resolves the procedures named in the plan
properties through the procedure query and splices the generated legs and
their no-save entries into the route; does nothing on an empty route.
The procedure query is external and supplied by the context. -/
def loadProceduresFromFlightplan (ctx : RouteContext)
    (_clearOldProcedureProperties _quiet : Bool) (st : RouteState) : RouteState :=
  if st.legs.isEmpty then st
  else
    let dep := ctx.procGenDeparture st.flightplan
    let arr := ctx.procGenArrival st.flightplan
    let newEntries := spliceProcs (dep.map markNoSave) (arr.map markNoSave) st.flightplan.entries
    let newLegs := spliceProcs (dep.map procLegOf) (arr.map procLegOf) st.legs
    { flightplan := { st.flightplan with entries := newEntries }, legs := newLegs }

/-- RouteCommand (routecommand.cpp, not under src/).  Modelled from the
spec: the undoable command captures the full flight-plan value before and
after a user-visible operation. -/
structure RouteCommand where
  flightplanBefore : Flightplan
  flightplanAfter : Flightplan

/-- RouteController::preChange (routecontroller.cpp:3673): snapshots the
current flight plan cleaned of procedure entries as the before-state of a
new undo command. -/
def preChange (st : RouteState) : Flightplan :=
  removeNoSaveEntries st.flightplan

/-- RouteController::postChange (routecontroller.cpp:3682): snapshots the
current flight plan cleaned of procedure entries as the after-state,
completing the command that is pushed onto the undo stack. -/
def postChange (flightplanBefore : Flightplan) (st : RouteState) : RouteCommand :=
  ⟨flightplanBefore, removeNoSaveEntries st.flightplan⟩

/-- RouteController::changeRouteUndoRedo (routecontroller.cpp:2085):
replaces the flight plan by the stored snapshot, rebuilds the route legs,
reloads the procedures from the plan properties and recomputes the derived
state. -/
def changeRouteUndoRedo (ctx : RouteContext) (newFlightplan : Flightplan)
    (st : RouteState) : RouteState :=
  let st1 := { st with flightplan := newFlightplan }
  let st2 := createRouteLegsFromFlightplan st1
  let st3 := loadProceduresFromFlightplan ctx true true st2
  updateAirwaysAndAltitude false false (updateAll st3)

/-- RouteController::changeRouteUndo (routecontroller.cpp:2059): replays
the before-snapshot of the command. -/
def changeRouteUndo (ctx : RouteContext) (cmd : RouteCommand) (st : RouteState) :
    RouteState :=
  changeRouteUndoRedo ctx cmd.flightplanBefore st

/-- RouteController::changeRouteRedo (routecontroller.cpp:2069): replays
the after-snapshot of the command. -/
def changeRouteRedo (ctx : RouteContext) (cmd : RouteCommand) (st : RouteState) :
    RouteState :=
  changeRouteUndoRedo ctx cmd.flightplanAfter st

/-- Flightplan::reverse (atools, not under src/).  Modelled from the
spec: reverses the order of the entries and swaps the departure and
destination roles of the plan metadata. -/
def Flightplan.reverse (fp : Flightplan) : Flightplan :=
  { entries := fp.entries.reverse,
    departureIdent := fp.destinationIdent,
    destinationIdent := fp.departureIdent }

/-- One iteration of the airway-shift loop of
RouteController::reverseRoute (routecontroller.cpp:1467): the entry at
position i receives the airway name of the entry at position i - 1. -/
def airwayShiftStep (l : List FlightplanEntry) (i : ℕ) : List FlightplanEntry :=
  match l.get? i, l.get? (i - 1) with
  | some ei, some em =>
    let shifted := { ei with airway := em.airway }
    l.set i shifted
  | _, _ => l

/-- The airway-shift loop of RouteController::reverseRoute, running the
step for i = k, k - 1, ..., 1 exactly as the descending C++ loop does. -/
def airwayShiftDown (l : List FlightplanEntry) : ℕ → List FlightplanEntry
  | 0 => l
  | i + 1 => airwayShiftDown (airwayShiftStep l (i + 1)) i

/-- RouteController::reverseRoute (routecontroller.cpp:1452): removes all
procedures, reverses the flight plan, moves all airway names one entry
down — but only when the plan has more than 3 entries — and rebuilds the
route. -/
def reverseRoute (ctx : RouteContext) (st : RouteState) : RouteState :=
  let st1 := removeProcedureLegs PROCEDURE_ALL st
  let fp := st1.flightplan.reverse
  let entries :=
    if 3 < fp.entries.length then airwayShiftDown fp.entries (fp.entries.length - 2)
    else fp.entries
  let st2 := { st1 with flightplan := { fp with entries := entries } }
  let st3 := createRouteLegsFromFlightplan st2
  let st4 := updateAirwaysAndAltitude false false (updateAll st3)
  let st5 := updateStartPositionBestRunway ctx true st4
  updateActiveLegAndPos st5

/-- Route::removeDuplicateRouteLegs (atools, not under src/).  Modelled
from the spec: duplicate consecutive legs at the splice boundary are
collapsed, i.e. a leg equal in ident and position to its predecessor is
dropped together with its entry. -/
def removeDuplicateRouteLegs (st : RouteState) : RouteState :=
  let pairs := st.legs.zip st.flightplan.entries
  let kept := pairs.destutter
    (fun p q => ¬(p.1.ident = q.1.ident ∧ p.1.pos = q.1.pos))
  { flightplan := { st.flightplan with entries := kept.map Prod.snd },
    legs := kept.map Prod.fst }

/-- Constant MAX_DISTANCE_DIRECT_RATIO.  Modelled from the spec: the
fixed distance-ratio rejection threshold is declared in routecontroller.h
(not under src/) and is empirically 2.0. -/
def maxDistanceDirectRatio : ℚ := 2

/-- Route::getStartIndexAfterProcedure (atools, not under src/).
Modelled from the spec: the index of the first leg after the departure
procedure range sitting immediately after index 0, or 0 when no departure
procedure is attached. -/
def startIndexAfterProcedure (legs : List RouteLeg) : ℕ :=
  let k := legs.countP (fun l => l.procType.isDeparture)
  if k = 0 then 0 else k + 1

/-- Route::getDestinationIndexBeforeProcedure (atools, not under src/).
Modelled from the spec: the index of the last leg before the arrival
procedure range sitting immediately before the last index, or the last
index when no arrival procedure is attached. -/
def destinationIndexBeforeProcedure (legs : List RouteLeg) : ℕ :=
  let m := legs.countP (fun l => l.procType.isArrival)
  if m = 0 then legs.length - 1 else legs.length - m - 2

/-- Clamp of a selected from-index performed by
RouteController::calculateRouteInternal (routecontroller.cpp:1302):
fromIndex is raised to at least the first index after the departure
procedure. -/
def effectiveFromIndex (st : RouteState) (fromIndex : ℤ) : ℤ :=
  max (startIndexAfterProcedure st.legs : ℤ) fromIndex

/-- Clamp of a selected to-index performed by
RouteController::calculateRouteInternal (routecontroller.cpp:1303):
toIndex is lowered to at most the last index before the arrival
procedure. -/
def effectiveToIndex (st : RouteState) (toIndex : ℤ) : ℤ :=
  min (destinationIndexBeforeProcedure st.legs : ℤ) toIndex

/-- Departure position handed to the route finder by
calculateRouteInternal: the position of the leg at the clamped from-index
for a selected-range calculation, else of the leg after any departure
procedure. -/
def calcDeparturePos (st : RouteState) (fromIndex toIndex : ℤ) : GeoPos :=
  if fromIndex ≠ -1 ∧ toIndex ≠ -1 then
    (st.legs.getD (effectiveFromIndex st fromIndex).toNat default).pos
  else (st.legs.getD (startIndexAfterProcedure st.legs) default).pos

/-- Destination position handed to the route finder by
calculateRouteInternal: the position of the leg at the clamped to-index
for a selected-range calculation, else of the leg before any arrival
procedure. -/
def calcDestinationPos (st : RouteState) (fromIndex toIndex : ℤ) : GeoPos :=
  if fromIndex ≠ -1 ∧ toIndex ≠ -1 then
    (st.legs.getD (effectiveToIndex st toIndex).toNat default).pos
  else (st.legs.getD (destinationIndexBeforeProcedure st.legs) default).pos

/-- Altitude passed to the route finder: the rounded cruise altitude when
the use-altitude flag is set, else 0 (routecontroller.cpp:1293). -/
def calcAltitude (useSetAltitude : Bool) (cruise : ℤ) : ℤ :=
  if useSetAltitude then cruise else 0

/-- RouteController::calculateRouteInternal (routecontroller.cpp:1278):
runs the route finder between the departure and destination positions,
and on success compares the path distance against the direct great-circle
distance; only a ratio strictly below the threshold is accepted, in which
case the enroute span of the plan is replaced by the found path and the
route is rebuilt.  On a finder failure, or when the ratio check fails,
the result is negative and the state is returned untouched. -/
def calculateRouteInternal (ctx : RouteContext) (fetchAirways useSetAltitude : Bool)
    (cruise : ℤ) (fromIndex toIndex : ℤ) (st : RouteState) : Bool × RouteState :=
  let calcRange := fromIndex != -1 && toIndex != -1
  let altitude := calcAltitude useSetAltitude cruise
  let departurePos := calcDeparturePos st fromIndex toIndex
  let destinationPos := calcDestinationPos st fromIndex toIndex
  let found := ctx.finderFound departurePos destinationPos altitude
  if found then
    let distance := ctx.finderDistance departurePos destinationPos altitude
    let calculatedRoute := ctx.finderRoute departurePos destinationPos altitude
    let directDistance := ctx.dist departurePos destinationPos
    let ratio := distance / directDistance
    if ratio < maxDistanceDirectRatio then
      let fi := (effectiveFromIndex st fromIndex).toNat
      let ti := (effectiveToIndex st toIndex).toNat
      let entries := st.flightplan.entries
      let erased :=
        if calcRange then entries.take (fi + 1) ++ entries.drop ti
        else entries.take 1 ++ entries.drop (entries.length - 1)
      let builder := fun (re : ℤ × ℤ) =>
        let e := ctx.build re.1
        if fetchAirways && re.2 != -1 then { e with airway := ctx.airwayName re.2 }
        else e
      let inserted := (calculatedRoute.foldl
        (fun (acc : List FlightplanEntry × ℕ) re =>
          let e := builder re
          (if calcRange then acc.1.insertIdx (fi + acc.2) e
           else acc.1.insertIdx (acc.1.length - 1) e,
           acc.2 + 1))
        (erased, 1)).1
      let fp1 := removeNoSaveEntries { st.flightplan with entries := inserted }
      let st1 := createRouteLegsFromFlightplan { st with flightplan := fp1 }
      let st2 := loadProceduresFromFlightplan ctx true true st1
      let st3 := removeDuplicateRouteLegs st2
      let st4 := updateAirwaysAndAltitude (!useSetAltitude) true (updateAll st3)
      (true, updateActiveLegAndPos st4)
    else (false, st)
  else (false, st)

/-- Qt QList::insert: inserting is defined only for 0 <= i <= size (an
assertion in Qt); an out-of-range index is modelled as failure. -/
def qlistInsert {α : Type} (i : ℤ) (x : α) (l : List α) : Option (List α) :=
  if 0 ≤ i ∧ i ≤ (l.length : ℤ) then some (l.insertIdx i.toNat x) else none

/-- Qt QList::removeAt: defined only for 0 <= i < size (an assertion in
Qt); an out-of-range index is modelled as failure. -/
def qlistRemoveAt {α : Type} (i : ℤ) (l : List α) : Option (List α) :=
  if 0 ≤ i ∧ i < (l.length : ℤ) then some (l.eraseIdx i.toNat) else none

/-- RouteController::routeAddInternal (routecontroller.cpp:2648): inserts
the entry and a leg derived from it at the given index, clears the airway
names at the index and its successor, removes the procedure ranges whose
boundary leg was replaced, and rebuilds the derived state.  The function
performs no index validation of its own; the list inserts carry the Qt
precondition. -/
def routeAddInternal (ctx : RouteContext) (entry : FlightplanEntry)
    (insertIndex : ℤ) (st : RouteState) : Option RouteState :=
  match qlistInsert insertIndex entry st.flightplan.entries with
  | none => none
  | some entries1 =>
    let fp1 := eraseAirway (insertIndex + 1)
      (eraseAirway insertIndex { st.flightplan with entries := entries1 })
    let routeLeg := legOfEntry entry
    match qlistInsert insertIndex routeLeg st.legs with
    | none => none
    | some legs1 =>
      let stIns : RouteState := { flightplan := fp1, legs := legs1 }
      let procs := affectedProcedures stIns [insertIndex]
      let st2 := removeProcedureLegs procs stIns
      let st3 := updateAirwaysAndAltitude false false (updateAll st2)
      let st4 := updateStartPositionBestRunway ctx false st3
      let st5 := routeToFlightPlan st4
      let st6 := updateFlightplanFromWidgets st5
      some (updateActiveLegAndPos st6)

/-- RouteController::routeDelete (routecontroller.cpp:2803): removes the
entry and leg at the index, clears the airway name of the entry now at
that index, removes the arrival procedures when the destination was
removed and the departure procedures when index 0 was removed, and
rebuilds the derived state. -/
def routeDelete (ctx : RouteContext) (index : ℤ) (st : RouteState) :
    Option RouteState :=
  match qlistRemoveAt index st.flightplan.entries with
  | none => none
  | some entries1 =>
    match qlistRemoveAt index st.legs with
    | none => none
    | some legs1 =>
      let fp1 := eraseAirway index { st.flightplan with entries := entries1 }
      let stDel : RouteState := { flightplan := fp1, legs := legs1 }
      let st2 :=
        if index = (legs1.length : ℤ) then removeProcedureLegs PROCEDURE_ARRIVAL_ALL stDel
        else stDel
      let st3 := if index = 0 then removeProcedureLegs PROCEDURE_DEPARTURE st2 else st2
      let st4 := updateAirwaysAndAltitude false false (updateAll st3)
      let st5 := updateStartPositionBestRunway ctx (index == 0) st4
      let st6 := routeToFlightPlan st5
      some (updateFlightplanFromWidgets st6)

instance : Inhabited RouteState := ⟨⟨⟨[], "", ""⟩, []⟩⟩

/-- Inert external context used by the concrete examples: the finder finds
nothing, the procedure query returns nothing and no best start position is
available. -/
def inertContext : RouteContext :=
  { finderFound := fun _ _ _ => false
    finderRoute := fun _ _ _ => []
    finderDistance := fun _ _ _ => 0
    dist := fun _ _ => 1
    build := fun _ => default
    airwayName := fun _ => ""
    procGenDeparture := fun _ => []
    procGenArrival := fun _ => []
    noParkingAndStart := false
    bestStartValid := false }

/-- Context whose finder succeeds with a path of exactly twice the direct
distance, exercising the acceptance threshold boundary. -/
def ratioBoundaryContext : RouteContext :=
  { inertContext with
    finderFound := fun _ _ _ => true
    finderDistance := fun _ _ _ => 2
    dist := fun _ _ => 1 }

/-- Departure airport of the removal scenario. -/
def entryKJFK : FlightplanEntry := ⟨"KJFK", "", (0, 0), true, false⟩

/-- Middle waypoint of the removal scenario. -/
def entryWAYPT1 : FlightplanEntry := ⟨"WAYPT1", "", (1, 0), false, false⟩

/-- Destination airport of the removal scenario, carrying the airway name
of the edge from WAYPT1. -/
def entryKLAX : FlightplanEntry := ⟨"KLAX", "J5", (2, 0), true, false⟩

/-- Route state of the removal scenario: KJFK, WAYPT1, KLAX. -/
def scenarioDeleteState : RouteState :=
  { flightplan :=
      { entries := [entryKJFK, entryWAYPT1, entryKLAX],
        departureIdent := "KJFK", destinationIdent := "KLAX" },
    legs := [entryKJFK, entryWAYPT1, entryKLAX].map legOfEntry }

/-- Fresh waypoint used by the insertion examples, carrying a stale airway
name that the insert must clear. -/
def entryNEW : FlightplanEntry := ⟨"NEWPT", "V9", (5, 5), false, false⟩

/-- Departure airport of the reversal example. -/
def entryEDDF : FlightplanEntry := ⟨"EDDF", "", (0, 0), true, false⟩

/-- Middle waypoint of the reversal example, reached from EDDF via airway
V1. -/
def entryWPT1 : FlightplanEntry := ⟨"WPT1", "V1", (1, 0), false, false⟩

/-- Destination airport of the reversal example, reached from WPT1 via
airway J2. -/
def entryEDDM : FlightplanEntry := ⟨"EDDM", "J2", (2, 0), true, false⟩

/-- Three-entry route EDDF, WPT1, EDDM used to exercise the reversal
airway handling. -/
def reverseThreeState : RouteState :=
  { flightplan :=
      { entries := [entryEDDF, entryWPT1, entryEDDM],
        departureIdent := "EDDF", destinationIdent := "EDDM" },
    legs := [entryEDDF, entryWPT1, entryEDDM].map legOfEntry }

/-- Entries of a five-point plan with airways on every edge. -/
def fiveEntries : List FlightplanEntry :=
  [⟨"AAAA", "", (0, 0), true, false⟩,
   ⟨"WONE", "V1", (1, 0), false, false⟩,
   ⟨"WTWO", "V2", (2, 0), false, false⟩,
   ⟨"WTRI", "V3", (3, 0), false, false⟩,
   ⟨"BBBB", "V4", (4, 0), true, false⟩]

/-- Five-entry route used by the reversal witnesses. -/
def fiveEntryState : RouteState :=
  { flightplan :=
      { entries := fiveEntries, departureIdent := "AAAA", destinationIdent := "BBBB" },
    legs := fiveEntries.map legOfEntry }

/-- Well-formed route shape per the route-model invariants: departure leg,
then a contiguous departure-procedure range, a nonempty free enroute span,
a contiguous arrival-procedure range, and the destination leg. -/
def RouteWellFormed (legs : List RouteLeg) : Prop :=
  ∃ h0 dep free arr hn,
    legs = h0 :: (dep ++ free ++ arr ++ [hn]) ∧
    h0.procType = ProcType.NONE ∧ hn.procType = ProcType.NONE ∧
    free ≠ [] ∧
    (∀ l ∈ dep, l.procType.isDeparture = true) ∧
    (∀ l ∈ free, l.procType = ProcType.NONE) ∧
    (∀ l ∈ arr, l.procType.isArrival = true)

/-- Legs of a well-formed route with one SID leg and one STAR leg, used by
the clamping witness. -/
def wfLegs : List RouteLeg :=
  [⟨"AAAA", (0, 0), true, ProcType.NONE⟩,
   ⟨"SID1", (1, 0), false, ProcType.SID⟩,
   ⟨"WONE", (2, 0), false, ProcType.NONE⟩,
   ⟨"WTWO", (3, 0), false, ProcType.NONE⟩,
   ⟨"STAR", (4, 0), false, ProcType.STAR⟩,
   ⟨"BBBB", (5, 0), true, ProcType.NONE⟩]

/-- Route state with the well-formed legs above. -/
def wfRouteState : RouteState :=
  { flightplan := { entries := [], departureIdent := "AAAA", destinationIdent := "BBBB" },
    legs := wfLegs }

/-- Entry sequence produced by reverseRoute: the reversed entries with the
airway names moved one entry down when the plan holds more than 3
entries (derived form of the reversal result, used by the reversal
theorems). -/
def reverseShiftedEntries (es : List FlightplanEntry) : List FlightplanEntry :=
  if 3 < es.reverse.length then airwayShiftDown es.reverse (es.reverse.length - 2)
  else es.reverse

/-- C9: the airway-name clearing helper eraseAirway is total: out of range
it is a silent no-op, and in range it rewrites only the airway field of the
single entry at the given row, leaving length and all other entries
untouched. -/
theorem eraseAirway_total_and_local (fp : Flightplan) (row : ℤ) :
    ((row < 0 ∨ (fp.entries.length : ℤ) ≤ row) → eraseAirway row fp = fp) ∧
    ((eraseAirway row fp).entries.length = fp.entries.length) ∧
    (∀ j : ℕ, (j : ℤ) ≠ row →
      (eraseAirway row fp).entries[j]? = fp.entries[j]?) ∧
    (0 ≤ row → row < (fp.entries.length : ℤ) →
      (eraseAirway row fp).entries.getD row.toNat default =
        { fp.entries.getD row.toNat default with airway := "" }) := by
  by_cases h : 0 ≤ row ∧ row < (fp.entries.length : ℤ)
  · unfold eraseAirway
    rw [if_pos h]
    refine ⟨fun hor => absurd hor (by omega), by simp, ?_, ?_⟩
    · intro j hj
      exact List.getElem?_set_ne (by omega)
    · intro h1 h2
      have hlt : row.toNat < fp.entries.length := by omega
      simp [List.getD_eq_getElem?_getD, List.getElem?_set_eq_of_lt _ hlt]
  · unfold eraseAirway
    rw [if_neg h]
    exact ⟨fun _ => rfl, rfl, fun _ _ => rfl, fun h1 h2 => absurd ⟨h1, h2⟩ h⟩

/-- Closed instance of eraseAirway_total_and_local on the scenario plan:
clearing row 1 keeps entry 0 and rewrites only the airway of entry 1. -/
theorem eraseAirway_total_and_local_witness :
    ((eraseAirway 1 scenarioDeleteState.flightplan).entries[0]? =
      scenarioDeleteState.flightplan.entries[0]?) ∧
    (eraseAirway 1 scenarioDeleteState.flightplan).entries.getD 1 default =
      { scenarioDeleteState.flightplan.entries.getD 1 default with airway := "" } :=
  ⟨(eraseAirway_total_and_local scenarioDeleteState.flightplan 1).2.2.1 0 (by decide),
   (eraseAirway_total_and_local scenarioDeleteState.flightplan 1).2.2.2 (by decide) (by decide)⟩

/-- C7: on the route KJFK, WAYPT1, KLAX, deleting index 1 yields the
two-point route KJFK, KLAX and clears the airway name stored on the KLAX
entry for the former WAYPT1 to KLAX edge. -/
theorem routeDelete_scenario_kjfk_klax :
    ((routeDelete inertContext 1 scenarioDeleteState).map
        (fun st => st.flightplan.entries.map (fun e => (e.ident, e.airway)))) =
      some [("KJFK", ""), ("KLAX", "")] ∧
    ((routeDelete inertContext 1 scenarioDeleteState).map (fun st => st.legs.length)) =
      some 2 := by
  exact ⟨rfl, rfl⟩

/-- C5 counterexample: routeAddInternal performs no index validation, so
calling it on the three-entry scenario route with the negative index -1 is
not a state-preserving no-op reporting InvalidIndex; the underlying list
insert violates its precondition and the call fails. -/
theorem routeAddInternal_invalid_index_cex :
    routeAddInternal inertContext entryNEW (-1) scenarioDeleteState ≠
      some scenarioDeleteState ∧
    routeAddInternal inertContext entryNEW (-1) scenarioDeleteState = none := by
  exact ⟨by decide, by decide⟩

/-- C5 amended: for every index that is negative or greater than the entry
count, routeAddInternal does not validate and does not report anything: the
Qt list-insert precondition is violated and the operation fails instead of
completing as a no-op. -/
theorem routeAddInternal_invalid_index_fails (ctx : RouteContext)
    (entry : FlightplanEntry) (i : ℤ) (st : RouteState)
    (h : i < 0 ∨ (st.flightplan.entries.length : ℤ) < i) :
    routeAddInternal ctx entry i st = none := by
  unfold routeAddInternal qlistInsert
  rw [if_neg (by omega)]

/-- Closed instance of routeAddInternal_invalid_index_fails at index -2 of
the scenario route. -/
theorem routeAddInternal_invalid_index_fails_witness :
    routeAddInternal inertContext entryNEW (-2) scenarioDeleteState = none :=
  routeAddInternal_invalid_index_fails inertContext entryNEW (-2) scenarioDeleteState
    (Or.inl (by decide))

/-- C2: whenever calculateRouteInternal reports a failed search — the
finder found no path, or the found path failed the distance-ratio check —
the route state (leg sequence and flight-plan entries alike) is returned
exactly as it was passed in: the rejection branch erases, inserts and
modifies nothing. -/
theorem calculateRouteInternal_failure_preserves_state (ctx : RouteContext)
    (fetchAirways useSetAltitude : Bool) (cruise fromIndex toIndex : ℤ)
    (st : RouteState)
    (h : (calculateRouteInternal ctx fetchAirways useSetAltitude cruise fromIndex
        toIndex st).fst = false) :
    (calculateRouteInternal ctx fetchAirways useSetAltitude cruise fromIndex
        toIndex st).snd = st := by
  unfold calculateRouteInternal at h ⊢
  dsimp only at h ⊢
  split at h
  next hfound =>
    split at h
    next hratio => simp at h
    next hratio => rw [if_pos hfound, if_neg hratio]
  next hfound => rw [if_neg hfound]

/-- Closed instance of calculateRouteInternal_failure_preserves_state: the
inert finder fails on the scenario route and the state comes back
unchanged. -/
theorem calculateRouteInternal_failure_preserves_state_witness :
    (calculateRouteInternal inertContext true true 10000 (-1) (-1)
        scenarioDeleteState).snd = scenarioDeleteState :=
  calculateRouteInternal_failure_preserves_state inertContext true true 10000 (-1) (-1)
    scenarioDeleteState (by decide)

/-- C1 amended: calculateRouteInternal accepts exactly when the finder
found a path and the ratio of path distance to direct great-circle distance
is strictly below the threshold 2.0; hence every accepted search has ratio
at most 2.0, and every failed search either found no path or had a ratio
that reached or exceeded 2.0. -/
theorem calculateRouteInternal_accept_iff (ctx : RouteContext)
    (fetchAirways useSetAltitude : Bool) (cruise fromIndex toIndex : ℤ)
    (st : RouteState) :
    let departurePos := calcDeparturePos st fromIndex toIndex
    let destinationPos := calcDestinationPos st fromIndex toIndex
    let altitude := calcAltitude useSetAltitude cruise
    let ratio := ctx.finderDistance departurePos destinationPos altitude /
      ctx.dist departurePos destinationPos
    ((calculateRouteInternal ctx fetchAirways useSetAltitude cruise fromIndex
        toIndex st).fst = true ↔
      (ctx.finderFound departurePos destinationPos altitude = true ∧
        ratio < maxDistanceDirectRatio)) ∧
    ((calculateRouteInternal ctx fetchAirways useSetAltitude cruise fromIndex
        toIndex st).fst = true → ratio ≤ maxDistanceDirectRatio) ∧
    ((calculateRouteInternal ctx fetchAirways useSetAltitude cruise fromIndex
        toIndex st).fst = false →
      ctx.finderFound departurePos destinationPos altitude = false ∨
        maxDistanceDirectRatio ≤ ratio) := by
  intro departurePos destinationPos altitude ratio
  unfold calculateRouteInternal
  dsimp only
  split
  next hfound =>
    split
    next hratio =>
      refine ⟨by simp [hfound, hratio, ratio], fun _ => le_of_lt hratio, by simp⟩
    next hratio =>
      refine ⟨by simp [hratio], by simp, fun _ => Or.inr (le_of_not_lt hratio)⟩
  next hfound =>
    refine ⟨by simp [hfound], by simp, fun _ => Or.inl (by simpa using hfound)⟩

/-- C1 counterexample: with a finder whose path is exactly twice the direct
distance, the search is reported as failed although a path was found and
the ratio did not exceed 2.0 — the threshold check is strict, so reaching
the threshold already rejects. -/
theorem calculateRouteInternal_ratio_boundary_cex :
    (calculateRouteInternal ratioBoundaryContext true true 10000 (-1) (-1)
        scenarioDeleteState).fst = false ∧
    ¬(ratioBoundaryContext.finderFound
          (calcDeparturePos scenarioDeleteState (-1) (-1))
          (calcDestinationPos scenarioDeleteState (-1) (-1))
          (calcAltitude true 10000) = false ∨
      maxDistanceDirectRatio <
        ratioBoundaryContext.finderDistance
            (calcDeparturePos scenarioDeleteState (-1) (-1))
            (calcDestinationPos scenarioDeleteState (-1) (-1))
            (calcAltitude true 10000) /
          ratioBoundaryContext.dist
            (calcDeparturePos scenarioDeleteState (-1) (-1))
            (calcDestinationPos scenarioDeleteState (-1) (-1))) := by
  have hlt : ¬((2 : ℚ) / 1 < maxDistanceDirectRatio) := by
    norm_num [maxDistanceDirectRatio]
  constructor
  · unfold calculateRouteInternal
    dsimp only [ratioBoundaryContext, inertContext]
    rw [if_pos rfl, if_neg hlt]
  · dsimp only [ratioBoundaryContext, inertContext]
    norm_num [maxDistanceDirectRatio]


/-- Entries surviving the no-save filter are never no-save entries. -/
theorem entries_removeNoSaveEntries_noSave (fp : Flightplan) :
    ∀ e ∈ (removeNoSaveEntries fp).entries, e.noSave = false := by
  intro e he
  simp only [removeNoSaveEntries, List.mem_filter, Bool.not_eq_true'] at he
  exact he.2

/-- Generated procedure entries are all marked no-save, so the filter
removes every one of them. -/
theorem filter_map_markNoSave (l : List (FlightplanEntry × ProcType)) :
    (l.map markNoSave).filter (fun e => !e.noSave) = [] := by
  induction l with
  | nil => rfl
  | cons p t ih => simp [markNoSave, ih]

/-- Splicing generated procedure entries into a plan of user entries and
filtering the no-save entries out again recovers exactly the user
entries. -/
theorem filter_spliceProcs (dep arr : List (FlightplanEntry × ProcType))
    (es : List FlightplanEntry) (hes : ∀ e ∈ es, e.noSave = false) :
    (spliceProcs (dep.map markNoSave) (arr.map markNoSave) es).filter
      (fun e => !e.noSave) = es := by
  cases es with
  | nil => rfl
  | cons e0 rest =>
    simp only [spliceProcs]
    by_cases hr : rest.isEmpty
    · have hre : rest = [] := List.isEmpty_iff.mp hr
      subst hre
      have h0 : e0.noSave = false := hes e0 (by simp)
      simp [List.filter_append, filter_map_markNoSave, h0]
    · rw [if_neg hr]
      have hrest : rest ≠ [] := by simpa [List.isEmpty_iff] using hr
      have h0 : e0.noSave = false := hes e0 (by simp)
      have hdrop : rest.dropLast.filter (fun e => !e.noSave) = rest.dropLast := by
        refine List.filter_eq_self.mpr ?_
        intro e he
        simp [hes e (List.mem_cons_of_mem e0 (List.dropLast_subset rest he))]
      have hlast : rest.getLast?.toList.filter (fun e => !e.noSave) =
          rest.getLast?.toList := by
        refine List.filter_eq_self.mpr ?_
        intro e he
        rw [List.getLast?_eq_getLast rest hrest] at he
        simp only [Option.toList_some, List.mem_singleton] at he
        subst he
        simp [hes _ (List.mem_cons_of_mem e0 (List.getLast_mem hrest))]
      have hcat : rest.dropLast ++ rest.getLast?.toList = rest := by
        rw [List.getLast?_eq_getLast rest hrest]
        simpa using List.dropLast_append_getLast hrest
      simp only [List.filter_cons, h0, Bool.not_false, if_pos, List.filter_append,
        filter_map_markNoSave, hdrop, hlast, List.nil_append, List.append_nil]
      rw [hcat]

/-- Replaying a snapshot of user entries through changeRouteUndoRedo and
cleaning the result of procedure entries yields the snapshot entries
verbatim, whatever the procedure query regenerates. -/
theorem changeRouteUndoRedo_filter (ctx : RouteContext) (p : Flightplan)
    (st : RouteState) (hp : ∀ e ∈ p.entries, e.noSave = false) :
    (removeNoSaveEntries (changeRouteUndoRedo ctx p st).flightplan).entries =
      p.entries := by
  unfold changeRouteUndoRedo updateAirwaysAndAltitude updateAll
    loadProceduresFromFlightplan createRouteLegsFromFlightplan
  dsimp only
  by_cases hleg : (p.entries.map legOfEntry).isEmpty
  · rw [if_pos hleg]
    exact List.filter_eq_self.mpr (by intro e he; simp [hp e he])
  · rw [if_neg hleg]
    exact filter_spliceProcs _ _ _ hp

/-- C3: for a single non-merged operation taking the route from one state
to another, undo followed by redo replays the before- and after-snapshots
captured by preChange and postChange verbatim through changeRouteUndoRedo,
so the flight-plan value the operation produced is restored entry for
entry once procedure-only entries are filtered out by
removeNoSaveEntries. -/
theorem undo_redo_restores_flightplan (ctx : RouteContext)
    (stBefore stAfter stAny : RouteState) :
    (removeNoSaveEntries
        (changeRouteRedo ctx (postChange (preChange stBefore) stAfter)
          (changeRouteUndo ctx (postChange (preChange stBefore) stAfter)
            stAny)).flightplan).entries =
      (removeNoSaveEntries stAfter.flightplan).entries := by
  unfold changeRouteRedo postChange
  exact changeRouteUndoRedo_filter ctx _ _ (entries_removeNoSaveEntries_noSave _)

/-- Clearing the first airway of a pair list does not change the legs. -/
theorem clearFirstAirway_map_fst (l : List (RouteLeg × FlightplanEntry)) :
    (clearFirstAirway l).map Prod.fst = l.map Prod.fst := by
  cases l with
  | nil => rfl
  | cons p r => rfl

/-- Every leg surviving a procedure removal carries a tag outside the
removal mask. -/
theorem mem_removeProcPairs_fst (mask : List ProcType)
    (pairs : List (RouteLeg × FlightplanEntry)) (l : RouteLeg)
    (hl : l ∈ (removeProcPairs mask pairs).map Prod.fst) :
    mask.contains l.procType = false := by
  induction pairs with
  | nil => simp [removeProcPairs] at hl
  | cons p rest ih =>
    unfold removeProcPairs at hl
    by_cases hc : mask.contains p.1.procType
    · rw [if_pos hc, clearFirstAirway_map_fst] at hl
      exact ih hl
    · rw [if_neg hc] at hl
      simp only [List.map_cons, List.mem_cons] at hl
      rcases hl with h | h
      · subst h
        exact Bool.not_eq_true _ ▸ (by simpa using hc)
      · exact ih h

/-- Removing procedure pairs is the identity when no leg matches the
mask. -/
theorem removeProcPairs_eq_self (mask : List ProcType)
    (pairs : List (RouteLeg × FlightplanEntry))
    (h : ∀ p ∈ pairs, mask.contains p.1.procType = false) :
    removeProcPairs mask pairs = pairs := by
  induction pairs with
  | nil => rfl
  | cons p rest ih =>
    unfold removeProcPairs
    have hp : p.1.procType ∉ mask := by simpa using h p (by simp)
    rw [if_neg (by simpa using hp), ih (fun q hq => h q (by simp [hq]))]

/-- Route::removeProcedureLegs does not touch an aligned route none of
whose legs matches the mask. -/
theorem removeProcedureLegs_noop (mask : List ProcType) (st : RouteState)
    (hlen : st.legs.length = st.flightplan.entries.length)
    (h : ∀ l ∈ st.legs, mask.contains l.procType = false) :
    removeProcedureLegs mask st = st := by
  unfold removeProcedureLegs
  dsimp only
  rw [removeProcPairs_eq_self mask _ (fun p hp => h p.1 (List.of_mem_zip hp).1)]
  rw [List.map_fst_zip _ _ (le_of_eq hlen), List.map_snd_zip _ _ (le_of_eq hlen.symm)]

/-- routeToFlightPlan rewrites plan metadata only, never the legs. -/
theorem routeToFlightPlan_legs (st : RouteState) :
    (routeToFlightPlan st).legs = st.legs := by
  unfold routeToFlightPlan
  split <;> rfl

/-- routeToFlightPlan keeps the entry sequence of a nonempty route. -/
theorem routeToFlightPlan_entries (st : RouteState) (h : st.legs ≠ []) :
    (routeToFlightPlan st).flightplan.entries = st.flightplan.entries := by
  unfold routeToFlightPlan
  rw [if_neg (by simpa [List.isEmpty_iff] using h)]

/-- updateStartPositionBestRunway never changes the legs. -/
theorem updateStartPositionBestRunway_legs (ctx : RouteContext) (force : Bool)
    (st : RouteState) :
    (updateStartPositionBestRunway ctx force st).legs = st.legs := by
  unfold updateStartPositionBestRunway
  split
  · exact routeToFlightPlan_legs st
  · rfl

/-- updateStartPositionBestRunway keeps the entries of a nonempty
route. -/
theorem updateStartPositionBestRunway_entries (ctx : RouteContext) (force : Bool)
    (st : RouteState) (h : st.legs ≠ []) :
    (updateStartPositionBestRunway ctx force st).flightplan.entries =
      st.flightplan.entries := by
  unfold updateStartPositionBestRunway
  split
  · exact routeToFlightPlan_entries st h
  · rfl

/-- Affected-procedure masks never contain the free tag, so free enroute
legs are never removed by a boundary procedure removal. -/
theorem mem_maskForIndex_ne_NONE (st : RouteState) (i : ℤ) (t : ProcType)
    (ht : t ∈ maskForIndex st i) : t ≠ ProcType.NONE := by
  have hdep : ∀ u ∈ PROCEDURE_DEPARTURE, u ≠ ProcType.NONE := by decide
  have harr : ∀ u ∈ PROCEDURE_ARRIVAL_ALL, u ≠ ProcType.NONE := by decide
  have htag : ∀ pt : ProcType, ∀ u ∈ tagMask pt, u ≠ ProcType.NONE := by decide
  unfold maskForIndex at ht
  simp only [List.mem_append] at ht
  rcases ht with (h | h) | h
  · split at h
    · exact hdep t h
    · simp at h
  · split at h
    · exact harr t h
    · simp at h
  · split at h
    · exact htag _ t h
    · simp at h

/-- The affected mask of a single row is the mask of that row. -/
theorem affectedProcedures_singleton (st : RouteState) (i : ℤ) :
    affectedProcedures st [i] = maskForIndex st i := by
  simp [affectedProcedures]

/-- eraseAirway keeps the entry count. -/
theorem eraseAirway_length (row : ℤ) (fp : Flightplan) :
    (eraseAirway row fp).entries.length = fp.entries.length := by
  unfold eraseAirway
  split <;> simp

/-- eraseAirway leaves every other row untouched. -/
theorem eraseAirway_getElem?_ne (row : ℤ) (fp : Flightplan) (j : ℕ)
    (hj : (j : ℤ) ≠ row) :
    (eraseAirway row fp).entries[j]? = fp.entries[j]? := by
  unfold eraseAirway
  split
  next h => exact List.getElem?_set_ne (by omega)
  next h => rfl

/-- In range, eraseAirway clears exactly the airway field of its row. -/
theorem eraseAirway_getD_self (row : ℤ) (fp : Flightplan) (h0 : 0 ≤ row)
    (h1 : row < (fp.entries.length : ℤ)) :
    (eraseAirway row fp).entries.getD row.toNat default =
      { fp.entries.getD row.toNat default with airway := "" } := by
  unfold eraseAirway
  rw [if_pos ⟨h0, h1⟩]
  have hlt : row.toNat < fp.entries.length := by omega
  simp [List.getD_eq_getElem?_getD, List.getElem?_set_eq_of_lt _ hlt]

/-- The departure-procedure tags are SID and SID transition. -/
theorem isDeparture_iff (t : ProcType) :
    t.isDeparture = true ↔ t = ProcType.SID ∨ t = ProcType.SID_TRANSITION := by
  revert t; decide

/-- The arrival-procedure tags are STAR, STAR transition, approach,
transition and missed. -/
theorem isArrival_iff (t : ProcType) :
    t.isArrival = true ↔ t = ProcType.STAR ∨ t = ProcType.STAR_TRANSITION ∨
      t = ProcType.APPROACH ∨ t = ProcType.TRANSITION ∨ t = ProcType.MISSED := by
  revert t; decide

/-- Evaluation of routeAddInternal on a valid index: both list inserts
satisfy the Qt precondition and the call reduces to the insert, airway
clearing, boundary procedure removal and metadata rewrite pipeline. -/
theorem routeAddInternal_eval (ctx : RouteContext) (entry : FlightplanEntry)
    (i : ℕ) (st : RouteState)
    (hlen : st.legs.length = st.flightplan.entries.length)
    (hi : i ≤ st.flightplan.entries.length) :
    routeAddInternal ctx entry (i : ℤ) st =
      some (routeToFlightPlan (updateStartPositionBestRunway ctx false
        (removeProcedureLegs
          (affectedProcedures
            ⟨eraseAirway ((i : ℤ) + 1) (eraseAirway (i : ℤ)
                { st.flightplan with entries := st.flightplan.entries.insertIdx i entry }),
              st.legs.insertIdx i (legOfEntry entry)⟩ [(i : ℤ)])
          ⟨eraseAirway ((i : ℤ) + 1) (eraseAirway (i : ℤ)
              { st.flightplan with entries := st.flightplan.entries.insertIdx i entry }),
            st.legs.insertIdx i (legOfEntry entry)⟩))) := by
  have h1 : qlistInsert (i : ℤ) entry st.flightplan.entries =
      some (st.flightplan.entries.insertIdx i entry) := by
    unfold qlistInsert
    rw [if_pos ⟨by omega, by omega⟩]
    norm_num
  have h2 : qlistInsert (i : ℤ) (legOfEntry entry) st.legs =
      some (st.legs.insertIdx i (legOfEntry entry)) := by
    unfold qlistInsert
    rw [if_pos ⟨by omega, by omega⟩]
    norm_num
  unfold routeAddInternal
  rw [h1]
  dsimp only
  rw [h2]
  simp only [updateAll, updateAirwaysAndAltitude, updateActiveLegAndPos,
    updateFlightplanFromWidgets]

/-- The legs left by removeProcedureLegs are the kept pair legs. -/
theorem removeProcedureLegs_legs (mask : List ProcType) (st : RouteState) :
    (removeProcedureLegs mask st).legs =
      (removeProcPairs mask (st.legs.zip st.flightplan.entries)).map Prod.fst := by
  unfold removeProcedureLegs
  rfl

/-- C6: for every valid insertion index, routeAddInternal inserts the
entry at that index and clears the stored airway names at the index and
its successor; a boundary insert removes the matching procedure range
(departure procedures at index 0, arrival procedures when appending past
the last position); and on a procedure-free route every other entry keeps
its airway name exactly. -/
theorem routeAddInternal_valid_insert_spec (ctx : RouteContext)
    (entry : FlightplanEntry) (i : ℕ) (st : RouteState)
    (hlen : st.legs.length = st.flightplan.entries.length)
    (hi : i ≤ st.flightplan.entries.length) :
    (routeAddInternal ctx entry (i : ℤ) st).isSome = true ∧
    (i = 0 → ∀ l ∈ ((routeAddInternal ctx entry (i : ℤ) st).getD default).legs,
      l.procType.isDeparture = false) ∧
    (i = st.flightplan.entries.length →
      ∀ l ∈ ((routeAddInternal ctx entry (i : ℤ) st).getD default).legs,
        l.procType.isArrival = false) ∧
    ((∀ l ∈ st.legs, l.procType = ProcType.NONE) →
      (((routeAddInternal ctx entry (i : ℤ) st).getD default).flightplan.entries.length =
          st.flightplan.entries.length + 1) ∧
      ((routeAddInternal ctx entry (i : ℤ) st).getD
            default).flightplan.entries.getD i default =
          { entry with airway := "" } ∧
      (i < st.flightplan.entries.length →
        ((routeAddInternal ctx entry (i : ℤ) st).getD
              default).flightplan.entries.getD (i + 1) default =
            { st.flightplan.entries.getD i default with airway := "" }) ∧
      (∀ j, j ≤ st.flightplan.entries.length → j ≠ i → j ≠ i + 1 →
        ((routeAddInternal ctx entry (i : ℤ) st).getD
              default).flightplan.entries.getD j default =
          (st.flightplan.entries.insertIdx i entry).getD j default)) := by
  rw [routeAddInternal_eval ctx entry i st hlen hi]
  set n := st.flightplan.entries.length with hn
  set mid := st.flightplan.entries.insertIdx i entry with hmid
  set fpMid := { st.flightplan with entries := mid } with hfpMid
  set fp1 := eraseAirway ((i : ℤ) + 1) (eraseAirway (i : ℤ) fpMid) with hfp1
  set legs1 := st.legs.insertIdx i (legOfEntry entry) with hlegs1
  set stIns : RouteState := ⟨fp1, legs1⟩ with hstIns
  set procs := affectedProcedures stIns [(i : ℤ)] with hprocs
  have hmidlen : mid.length = n + 1 := List.length_insertIdx i _ (by omega)
  have hfp1len : fp1.entries.length = n + 1 := by
    rw [hfp1, eraseAirway_length, eraseAirway_length]
    exact hmidlen
  have hfpMidE : fpMid.entries = mid := rfl
  have hlegs1len : legs1.length = n + 1 := by
    rw [hlegs1, List.length_insertIdx i _ (by omega), hlen]
  have hlegs1ne : legs1 ≠ [] := List.ne_nil_of_length_pos (by omega)
  have hprocsNone : ProcType.NONE ∉ procs := by
    intro hmem
    rw [hprocs, affectedProcedures_singleton] at hmem
    exact mem_maskForIndex_ne_NONE _ _ _ hmem rfl
  refine ⟨rfl, ?_, ?_, ?_⟩
  · -- departure procedures removed when inserting at index 0
    intro hi0 l hl
    simp only [Option.getD_some, routeToFlightPlan_legs,
      updateStartPositionBestRunway_legs, removeProcedureLegs_legs] at hl
    have hnotmem : l.procType ∉ procs := by
      simpa using mem_removeProcPairs_fst _ _ _ hl
    by_contra hne
    have hdep : l.procType.isDeparture = true := by simpa using hne
    refine hnotmem ?_
    rw [hprocs, affectedProcedures_singleton]
    unfold maskForIndex
    subst hi0
    rcases (isDeparture_iff l.procType).mp hdep with h | h <;>
      simp [h, PROCEDURE_DEPARTURE]
  · -- arrival procedures removed when appending at the end
    intro hiN l hl
    simp only [Option.getD_some, routeToFlightPlan_legs,
      updateStartPositionBestRunway_legs, removeProcedureLegs_legs] at hl
    have hnotmem : l.procType ∉ procs := by
      simpa using mem_removeProcPairs_fst _ _ _ hl
    by_contra hne
    have harr : l.procType.isArrival = true := by simpa using hne
    refine hnotmem ?_
    rw [hprocs, affectedProcedures_singleton]
    unfold maskForIndex
    have hcond : (stIns.legs.length : ℤ) - 1 ≤ (i : ℤ) := by
      have hsl : stIns.legs.length = n + 1 := hlegs1len
      omega
    rw [if_pos hcond]
    rcases (isArrival_iff l.procType).mp harr with h | h | h | h | h <;>
      simp [h, PROCEDURE_ARRIVAL_ALL, PROCEDURE_STAR_ALL, PROCEDURE_ARRIVAL]
  · -- airway bookkeeping on a procedure-free route
    intro hnp
    have hfree : ∀ l ∈ stIns.legs, procs.contains l.procType = false := by
      intro l hl
      have hmem : l = legOfEntry entry ∨ l ∈ st.legs :=
        (List.mem_insertIdx (by omega)).mp hl
      have hNone : l.procType = ProcType.NONE := by
        rcases hmem with h | h
        · rw [h]; rfl
        · exact hnp l h
      rw [hNone]
      simpa using hprocsNone
    have hnoop : removeProcedureLegs procs stIns = stIns :=
      removeProcedureLegs_noop procs stIns
        (show legs1.length = fp1.entries.length by rw [hlegs1len, hfp1len]) hfree
    rw [hnoop]
    have hentries :
        (routeToFlightPlan
            (updateStartPositionBestRunway ctx false stIns)).flightplan.entries =
          fp1.entries := by
      rw [routeToFlightPlan_entries _
          (by rw [updateStartPositionBestRunway_legs]; exact hlegs1ne),
        updateStartPositionBestRunway_entries _ _ _ hlegs1ne]
    refine ⟨?_, ?_, ?_, ?_⟩
    · simp only [Option.getD_some, hentries, hfp1len]
    · simp only [Option.getD_some, hentries]
      rw [hfp1, List.getD_eq_getElem?_getD, eraseAirway_getElem?_ne _ _ i (by omega),
        ← List.getD_eq_getElem?_getD]
      have hself := eraseAirway_getD_self (i : ℤ) fpMid (by omega)
        (by rw [hfpMidE, hmidlen]; omega)
      have htn : ((i : ℤ)).toNat = i := by omega
      rw [htn] at hself
      rw [hself]
      have hval : fpMid.entries.getD i default = entry := by
        rw [hfpMidE, List.getD_eq_getElem _ _ (by omega : i < mid.length)]
        exact List.getElem_insertIdx_self _ _ _ (by omega)
      rw [hval]
    · intro hiltn
      simp only [Option.getD_some, hentries]
      rw [hfp1]
      have h2self := eraseAirway_getD_self ((i : ℤ) + 1) (eraseAirway (i : ℤ) fpMid)
        (by omega) (by rw [eraseAirway_length, hfpMidE, hmidlen]; omega)
      have htn2 : ((i : ℤ) + 1).toNat = i + 1 := by omega
      rw [htn2] at h2self
      rw [h2self]
      have hinner : (eraseAirway (i : ℤ) fpMid).entries.getD (i + 1) default =
          st.flightplan.entries.getD i default := by
        rw [List.getD_eq_getElem?_getD, eraseAirway_getElem?_ne _ _ (i + 1) (by omega),
          ← List.getD_eq_getElem?_getD, hfpMidE,
          List.getD_eq_getElem _ _ (by omega : i + 1 < mid.length),
          List.getD_eq_getElem _ _ (by omega : i < st.flightplan.entries.length)]
        simpa using List.getElem_insertIdx_add_succ st.flightplan.entries entry i 0
          (by omega)
      rw [hinner]
    · intro j hj hji hji1
      simp only [Option.getD_some, hentries]
      rw [hfp1, List.getD_eq_getElem?_getD, eraseAirway_getElem?_ne _ _ j (by omega),
        eraseAirway_getElem?_ne _ _ j (by omega), ← List.getD_eq_getElem?_getD]

/-- Closed instance of routeAddInternal_valid_insert_spec: inserting the
fresh waypoint at index 1 of the scenario route succeeds and stores it
with its stale airway name cleared. -/
theorem routeAddInternal_valid_insert_spec_witness :
    (routeAddInternal inertContext entryNEW ((1 : ℕ) : ℤ) scenarioDeleteState).isSome =
      true ∧
    ((routeAddInternal inertContext entryNEW ((1 : ℕ) : ℤ) scenarioDeleteState).getD
          default).flightplan.entries.getD 1 default =
        { entryNEW with airway := "" } :=
  ⟨(routeAddInternal_valid_insert_spec inertContext entryNEW 1 scenarioDeleteState
      (by decide) (by decide)).1,
    ((routeAddInternal_valid_insert_spec inertContext entryNEW 1 scenarioDeleteState
        (by decide) (by decide)).2.2.2 (by decide)).2.1⟩

/-- One airway-shift step keeps the entry count. -/
theorem airwayShiftStep_length (l : List FlightplanEntry) (i : ℕ) :
    (airwayShiftStep l i).length = l.length := by
  unfold airwayShiftStep
  split <;> simp

/-- The airway-shift loop keeps the entry count. -/
theorem airwayShiftDown_length (l : List FlightplanEntry) (k : ℕ) :
    (airwayShiftDown l k).length = l.length := by
  induction k generalizing l with
  | zero => rfl
  | succ k ih => rw [airwayShiftDown, ih, airwayShiftStep_length]

/-- Closed form of the descending airway-shift loop: positions 1 through k receive the airway of their predecessor in the original list; position 0 and positions beyond k are untouched. -/
theorem airwayShiftDown_getElem? (l : List FlightplanEntry) (k : ℕ)
    (hk : k < l.length) (j : ℕ) :
    (airwayShiftDown l k)[j]? =
      if 1 ≤ j ∧ j ≤ k then
        (l[j]?).map (fun e => { e with airway := (l.getD (j - 1) default).airway })
      else l[j]? := by
  induction k generalizing l with
  | zero =>
    rw [if_neg (by omega)]
    rfl
  | succ k ih =>
    have hk1 : k + 1 < l.length := hk
    have he1 : l[k + 1]? = some l[k + 1] := List.getElem?_eq_getElem hk1
    have he0 : l[k]? = some l[k] := List.getElem?_eq_getElem (by omega)
    have hstep : airwayShiftStep l (k + 1) =
        l.set (k + 1) { l[k + 1] with airway := l[k].airway } := by
      unfold airwayShiftStep
      rw [show k + 1 - 1 = k from rfl]
      rw [List.get?_eq_getElem?, List.get?_eq_getElem?, he1, he0]
    rw [airwayShiftDown, hstep]
    set e1 := l[k + 1]
    set e0 := l[k]
    set l2 := l.set (k + 1) { e1 with airway := e0.airway } with hl2
    have hlen2 : l2.length = l.length := by simp [hl2]
    rw [ih l2 (by omega)]
    by_cases h1 : 1 ≤ j ∧ j ≤ k
    · rw [if_pos h1, if_pos (by omega)]
      have hj1 : l2[j]? = l[j]? := by
        rw [hl2]
        exact List.getElem?_set_ne (by omega)
      have hj0 : l2.getD (j - 1) default = l.getD (j - 1) default := by
        rw [List.getD_eq_getElem?_getD, List.getD_eq_getElem?_getD, hl2,
          List.getElem?_set_ne (by omega)]
      rw [hj1, hj0]
    · rw [if_neg h1]
      by_cases h2 : j = k + 1
      · subst h2
        rw [if_pos (by omega)]
        rw [hl2, List.getElem?_set_eq_of_lt _ (by omega), he1]
        have : l.getD (k + 1 - 1) default = e0 := by
          rw [show k + 1 - 1 = k from rfl, List.getD_eq_getElem?_getD, he0]
          rfl
        rw [this]
        rfl
      · rw [if_neg (by omega)]
        rw [hl2]
        exact List.getElem?_set_ne (by omega)

/-- The airway-shift loop changes airway fields only: any airway-insensitive projection of the entries is preserved. -/
theorem airwayShiftDown_map_of {α : Type} (f : FlightplanEntry → α)
    (hf : ∀ e s, f { e with airway := s } = f e) (l : List FlightplanEntry)
    (k : ℕ) (hk : k < l.length) :
    (airwayShiftDown l k).map f = l.map f := by
  refine List.ext_getElem? ?_
  intro n
  rw [List.getElem?_map, List.getElem?_map, airwayShiftDown_getElem? l k hk n]
  by_cases h : 1 ≤ n ∧ n ≤ k
  · rw [if_pos h]
    cases hx : l[n]? with
    | none => rfl
    | some e => simp [hf]
  · rw [if_neg h]

/-- The reversal result keeps the entry count. -/
theorem reverseShiftedEntries_length (es : List FlightplanEntry) :
    (reverseShiftedEntries es).length = es.length := by
  unfold reverseShiftedEntries
  split
  · rw [airwayShiftDown_length, List.length_reverse]
  · rw [List.length_reverse]

/-- The first entry of the reversal result is the old last entry, shift or no shift. -/
theorem reverseShiftedEntries_head? (es : List FlightplanEntry) :
    (reverseShiftedEntries es).head? = es.getLast? := by
  unfold reverseShiftedEntries
  split
  next h =>
    rw [List.head?_eq_getElem?, airwayShiftDown_getElem? _ _ (by omega) 0,
      if_neg (by omega), ← List.head?_eq_getElem?, List.head?_reverse]
  next h => rw [List.head?_reverse]

/-- The last entry of the reversal result is the old first entry, shift or no shift. -/
theorem reverseShiftedEntries_getLast? (es : List FlightplanEntry) :
    (reverseShiftedEntries es).getLast? = es.head? := by
  unfold reverseShiftedEntries
  split
  next h =>
    rw [List.getLast?_eq_getElem?, airwayShiftDown_length,
      airwayShiftDown_getElem? _ _ (by omega) _, if_neg (by omega),
      ← List.getLast?_eq_getElem?, List.getLast?_reverse]
  next h => rw [List.getLast?_reverse]

/-- Airway-insensitive projections of the reversal result are the reversed projections of the original entries. -/
theorem reverseShiftedEntries_map_of {α : Type} (f : FlightplanEntry → α)
    (hf : ∀ e s, f { e with airway := s } = f e) (es : List FlightplanEntry) :
    (reverseShiftedEntries es).map f = (es.map f).reverse := by
  unfold reverseShiftedEntries
  split
  next h =>
    rw [airwayShiftDown_map_of f hf _ _ (by omega), List.map_reverse]
  next h => rw [List.map_reverse]

/-- Characterization of reverseRoute on a route whose legs are derived from its entries: the entries become the reversed, shift-adjusted sequence, the legs stay derived from the entries, and for an airport-to-airport plan with consistent metadata the departure and destination idents are swapped. -/
theorem reverseRoute_char (ctx : RouteContext) (st : RouteState)
    (hsteady : st.legs = st.flightplan.entries.map legOfEntry) :
    (reverseRoute ctx st).flightplan.entries =
      reverseShiftedEntries st.flightplan.entries ∧
    (reverseRoute ctx st).legs =
      (reverseRoute ctx st).flightplan.entries.map legOfEntry ∧
    ((st.flightplan.entries.getLastD default).isAirport = true →
      st.flightplan.destinationIdent = (st.flightplan.entries.getLastD default).ident →
      (st.flightplan.entries.headD default).isAirport = true →
      st.flightplan.departureIdent = (st.flightplan.entries.headD default).ident →
      st.flightplan.entries ≠ [] →
      (reverseRoute ctx st).flightplan.departureIdent =
          st.flightplan.destinationIdent ∧
        (reverseRoute ctx st).flightplan.destinationIdent =
          st.flightplan.departureIdent) := by
  have hlenEq : st.legs.length = st.flightplan.entries.length := by
    rw [hsteady, List.length_map]
  have hNONE : ∀ l ∈ st.legs, PROCEDURE_ALL.contains l.procType = false := by
    intro l hl
    rw [hsteady] at hl
    obtain ⟨e, _, rfl⟩ := List.mem_map.mp hl
    show PROCEDURE_ALL.contains ProcType.NONE = false
    decide
  have hnoop := removeProcedureLegs_noop PROCEDURE_ALL st hlenEq hNONE
  unfold reverseRoute
  rw [hnoop]
  simp only [updateAll, updateAirwaysAndAltitude, updateActiveLegAndPos]
  set es := st.flightplan.entries with hes
  set E := reverseShiftedEntries es with hE
  have hEdef :
      (if 3 < (st.flightplan.reverse).entries.length then
        airwayShiftDown (st.flightplan.reverse).entries
          ((st.flightplan.reverse).entries.length - 2)
      else (st.flightplan.reverse).entries) = E := by
    rw [hE]
    rfl
  rw [hEdef]
  set st3 : RouteState :=
    createRouteLegsFromFlightplan
      { st with flightplan := { st.flightplan.reverse with entries := E } } with hst3
  have hst3legs : st3.legs = E.map legOfEntry := rfl
  have hst3entries : st3.flightplan.entries = E := rfl
  have hst3dep : st3.flightplan.departureIdent = st.flightplan.destinationIdent := rfl
  have hst3dest : st3.flightplan.destinationIdent = st.flightplan.departureIdent := rfl
  unfold updateStartPositionBestRunway
  split
  next hcond =>
    have hlegs3ne : st3.legs ≠ [] := by
      intro hnil
      have hfv := hcond.1
      unfold hasValidDeparture at hfv
      rw [hnil] at hfv
      simp [List.headD, default] at hfv
    refine ⟨?_, ?_, ?_⟩
    · rw [routeToFlightPlan_entries st3 hlegs3ne, hst3entries]
    · rw [routeToFlightPlan_legs, routeToFlightPlan_entries st3 hlegs3ne,
        hst3legs, hst3entries]
    · intro hAn hc2 hA0 hc1 hne
      have hEne : E ≠ [] := by
        intro h
        rw [hst3legs, h] at hlegs3ne
        exact hlegs3ne rfl
      have hhead : st3.legs.head? = some (legOfEntry (es.getLastD default)) := by
        rw [hst3legs, List.head?_map, hE, reverseShiftedEntries_head?,
          List.getLastD_eq_getLast? default es]
        cases hgl : es.getLast? with
        | none => exact absurd (List.getLast?_eq_none_iff.mp hgl) hne
        | some e => rfl
      have hlast : st3.legs.getLast? = some (legOfEntry (es.headD default)) := by
        rw [hst3legs, List.getLast?_map, hE, reverseShiftedEntries_getLast?,
          List.headD_eq_head?_getD]
        cases hgl : es.head? with
        | none => exact absurd (List.head?_eq_none_iff.mp hgl) hne
        | some e => rfl
      unfold routeToFlightPlan
      rw [if_neg (by simpa [List.isEmpty_iff] using hlegs3ne)]
      have hheadD : st3.legs.headD default = legOfEntry (es.getLastD default) := by
        rw [List.headD_eq_head?_getD, hhead]
        rfl
      have hlastD : st3.legs.getLastD default = legOfEntry (es.headD default) := by
        rw [List.getLastD_eq_getLast? default, hlast]
        rfl
      constructor
      · show (if (st3.legs.headD default).isAirport then
            (st3.legs.headD default).ident else "") = st.flightplan.destinationIdent
        rw [hheadD]
        show (if (es.getLastD default).isAirport then
            (es.getLastD default).ident else "") = st.flightplan.destinationIdent
        rw [if_pos (by rw [hAn])]
        exact hc2.symm
      · show (if (st3.legs.getLastD default).isAirport then
            (st3.legs.getLastD default).ident else "") = st.flightplan.departureIdent
        rw [hlastD]
        show (if (es.headD default).isAirport then
            (es.headD default).ident else "") = st.flightplan.departureIdent
        rw [if_pos (by rw [hA0])]
        exact hc1.symm
  next hcond =>
    exact ⟨hst3entries, by rw [hst3legs, hst3entries], fun _ _ _ _ _ =>
      ⟨hst3dep, hst3dest⟩⟩

/-- C4 amended: reverseRoute discards all procedures and swaps the departure and destination roles; the airway names are reassigned by the one-position shift only when the plan has more than 3 entries, and then only interior positions 1 through n-2 receive the airway of their predecessor in the reversed order, while the first and last entries keep their reversed airways; plans of 2 or 3 entries get no airway reassignment at all. -/
theorem reverseRoute_spec (ctx : RouteContext) (st : RouteState)
    (hsteady : st.legs = st.flightplan.entries.map legOfEntry)
    (hAn : (st.flightplan.entries.getLastD default).isAirport = true)
    (hc2 : st.flightplan.destinationIdent =
      (st.flightplan.entries.getLastD default).ident)
    (hA0 : (st.flightplan.entries.headD default).isAirport = true)
    (hc1 : st.flightplan.departureIdent =
      (st.flightplan.entries.headD default).ident)
    (hne : st.flightplan.entries ≠ []) :
    (∀ l ∈ (reverseRoute ctx st).legs, l.procType = ProcType.NONE) ∧
    (reverseRoute ctx st).flightplan.departureIdent =
      st.flightplan.destinationIdent ∧
    (reverseRoute ctx st).flightplan.destinationIdent =
      st.flightplan.departureIdent ∧
    (reverseRoute ctx st).flightplan.entries.map FlightplanEntry.ident =
      (st.flightplan.entries.map FlightplanEntry.ident).reverse ∧
    (3 < st.flightplan.entries.length → ∀ j : ℕ,
      (reverseRoute ctx st).flightplan.entries[j]? =
        if 1 ≤ j ∧ j ≤ st.flightplan.entries.length - 2 then
          (st.flightplan.entries.reverse[j]?).map
            (fun e => { e with airway :=
              (st.flightplan.entries.reverse.getD (j - 1) default).airway })
        else st.flightplan.entries.reverse[j]?) ∧
    (st.flightplan.entries.length ≤ 3 →
      (reverseRoute ctx st).flightplan.entries = st.flightplan.entries.reverse) := by
  obtain ⟨hE, hlegs, hmeta⟩ := reverseRoute_char ctx st hsteady
  have hmeta' := hmeta hAn hc2 hA0 hc1 hne
  refine ⟨?_, hmeta'.1, hmeta'.2, ?_, ?_, ?_⟩
  · intro l hl
    rw [hlegs] at hl
    obtain ⟨e, _, rfl⟩ := List.mem_map.mp hl
    rfl
  · rw [hE]
    exact reverseShiftedEntries_map_of FlightplanEntry.ident (fun e s => rfl) _
  · intro h3 j
    rw [hE]
    unfold reverseShiftedEntries
    rw [if_pos (by rw [List.length_reverse]; omega)]
    rw [airwayShiftDown_getElem? _ _ (by rw [List.length_reverse]; omega) j]
    rw [List.length_reverse]
  · intro h3
    rw [hE]
    unfold reverseShiftedEntries
    rw [if_neg (by rw [List.length_reverse]; omega)]

/-- C8: applying reverseRoute twice to an airport-to-airport plan with consistent metadata restores the original departure and destination idents and the original leg order (entry and leg ident sequences), while the airway annotations are not claimed to round-trip. -/
theorem reverseRoute_involutive_idents (ctx : RouteContext) (st : RouteState)
    (hsteady : st.legs = st.flightplan.entries.map legOfEntry)
    (hAn : (st.flightplan.entries.getLastD default).isAirport = true)
    (hc2 : st.flightplan.destinationIdent =
      (st.flightplan.entries.getLastD default).ident)
    (hA0 : (st.flightplan.entries.headD default).isAirport = true)
    (hc1 : st.flightplan.departureIdent =
      (st.flightplan.entries.headD default).ident)
    (hne : st.flightplan.entries ≠ []) :
    (reverseRoute ctx (reverseRoute ctx st)).flightplan.entries.map
        FlightplanEntry.ident =
      st.flightplan.entries.map FlightplanEntry.ident ∧
    (reverseRoute ctx (reverseRoute ctx st)).legs.map RouteLeg.ident =
      st.flightplan.entries.map FlightplanEntry.ident ∧
    (reverseRoute ctx (reverseRoute ctx st)).flightplan.departureIdent =
      st.flightplan.departureIdent ∧
    (reverseRoute ctx (reverseRoute ctx st)).flightplan.destinationIdent =
      st.flightplan.destinationIdent := by
  obtain ⟨hE1, hlegs1, hmeta1⟩ := reverseRoute_char ctx st hsteady
  have hmeta1' := hmeta1 hAn hc2 hA0 hc1 hne
  set m1 := reverseRoute ctx st with hm1
  have hm1mapident : m1.flightplan.entries.map FlightplanEntry.ident =
      (st.flightplan.entries.map FlightplanEntry.ident).reverse := by
    rw [hE1]
    exact reverseShiftedEntries_map_of FlightplanEntry.ident (fun e s => rfl) _
  have hm1len : m1.flightplan.entries.length = st.flightplan.entries.length := by
    rw [hE1, reverseShiftedEntries_length]
  have hm1ne : m1.flightplan.entries ≠ [] := by
    intro h
    rw [h] at hm1len
    exact hne (List.eq_nil_of_length_eq_zero hm1len.symm)
  have hm1headD : m1.flightplan.entries.headD default =
      st.flightplan.entries.getLastD default := by
    rw [List.headD_eq_head?_getD, hE1, reverseShiftedEntries_head?,
      List.getLastD_eq_getLast?]
  have hm1lastD : m1.flightplan.entries.getLastD default =
      st.flightplan.entries.headD default := by
    rw [List.getLastD_eq_getLast?, hE1, reverseShiftedEntries_getLast?,
      List.headD_eq_head?_getD]
  have hA0' : (m1.flightplan.entries.headD default).isAirport = true := by
    rw [hm1headD]; exact hAn
  have hAn' : (m1.flightplan.entries.getLastD default).isAirport = true := by
    rw [hm1lastD]; exact hA0
  have hc1' : m1.flightplan.departureIdent =
      (m1.flightplan.entries.headD default).ident := by
    rw [hmeta1'.1, hm1headD, hc2]
  have hc2' : m1.flightplan.destinationIdent =
      (m1.flightplan.entries.getLastD default).ident := by
    rw [hmeta1'.2, hm1lastD, hc1]
  obtain ⟨hE2, hlegs2, hmeta2⟩ := reverseRoute_char ctx m1 hlegs1
  have hmeta2' := hmeta2 hAn' hc2' hA0' hc1' hm1ne
  have hmap2 : (reverseRoute ctx m1).flightplan.entries.map FlightplanEntry.ident =
      st.flightplan.entries.map FlightplanEntry.ident := by
    rw [hE2, reverseShiftedEntries_map_of FlightplanEntry.ident (fun e s => rfl) _, hm1mapident,
      List.reverse_reverse]
  refine ⟨hmap2, ?_, ?_, ?_⟩
  · rw [hlegs2, List.map_map]
    have hcomp : (RouteLeg.ident ∘ legOfEntry) = FlightplanEntry.ident := by
      funext e
      rfl
    rw [hcomp, hmap2]
  · rw [hmeta2'.1, hmeta1'.2]
  · rw [hmeta2'.2, hmeta1'.1]

/-- C4 counterexample: on the three-entry plan EDDF, WPT1(V1), EDDM(J2) the claim requires the airway recorded as arriving at WPT1 after reversal to be J2, the airway that departed WPT1 originally; but the shift loop is guarded by size > 3, so the reversed entry keeps V1. -/
theorem reverseRoute_airway_shift_cex :
    ((reverseRoute inertContext reverseThreeState).flightplan.entries.getD 1
        default).airway = "V1" ∧
    (reverseThreeState.flightplan.entries.getD 2 default).airway = "J2" ∧
    ¬((reverseRoute inertContext reverseThreeState).flightplan.entries.getD 1
        default).airway =
      (reverseThreeState.flightplan.entries.getD 2 default).airway := by
  exact ⟨by decide, by decide, by decide⟩

/-- Closed instance of reverseRoute_spec on the five-entry plan: the ident order is reversed and the departure role receives the old destination ident. -/
theorem reverseRoute_spec_witness :
    (reverseRoute inertContext fiveEntryState).flightplan.entries.map
        FlightplanEntry.ident =
      (fiveEntryState.flightplan.entries.map FlightplanEntry.ident).reverse ∧
    (reverseRoute inertContext fiveEntryState).flightplan.departureIdent =
      fiveEntryState.flightplan.destinationIdent :=
  ⟨(reverseRoute_spec inertContext fiveEntryState rfl (by decide) (by decide)
      (by decide) (by decide) (by decide)).2.2.2.1,
    (reverseRoute_spec inertContext fiveEntryState rfl (by decide) (by decide)
      (by decide) (by decide) (by decide)).2.1⟩

/-- Closed instance of reverseRoute_involutive_idents on the five-entry plan: double reversal restores the ident sequence and the departure ident. -/
theorem reverseRoute_involutive_idents_witness :
    (reverseRoute inertContext
        (reverseRoute inertContext fiveEntryState)).flightplan.entries.map
        FlightplanEntry.ident =
      fiveEntryState.flightplan.entries.map FlightplanEntry.ident ∧
    (reverseRoute inertContext
        (reverseRoute inertContext fiveEntryState)).flightplan.departureIdent =
      fiveEntryState.flightplan.departureIdent :=
  ⟨(reverseRoute_involutive_idents inertContext fiveEntryState rfl (by decide)
      (by decide) (by decide) (by decide) (by decide)).1,
    (reverseRoute_involutive_idents inertContext fiveEntryState rfl (by decide)
      (by decide) (by decide) (by decide) (by decide)).2.2.1⟩

/-- An arrival-procedure tag is never a departure tag. -/
theorem arrival_not_departure (t : ProcType) (h : t.isArrival = true) :
    t.isDeparture = false := by
  revert t; decide

/-- The free tag is not a departure tag. -/
theorem NONE_not_departure : ProcType.NONE.isDeparture = false := rfl

/-- The free tag is not an arrival tag. -/
theorem NONE_not_arrival : ProcType.NONE.isArrival = false := rfl

/-- A departure-procedure tag is never an arrival tag. -/
theorem departure_not_arrival (t : ProcType) (h : t.isDeparture = true) :
    t.isArrival = false := by
  revert t; decide

/-- In a well-formed route the departure-procedure legs are counted exactly by the departure range. -/
theorem wf_countP_isDeparture (h0 hn : RouteLeg) (dep free arr : List RouteLeg)
    (hh0 : h0.procType = ProcType.NONE) (hhn : hn.procType = ProcType.NONE)
    (hdep : ∀ l ∈ dep, l.procType.isDeparture = true)
    (hfree : ∀ l ∈ free, l.procType = ProcType.NONE)
    (harr : ∀ l ∈ arr, l.procType.isArrival = true) :
    (h0 :: (dep ++ free ++ arr ++ [hn])).countP
      (fun l => l.procType.isDeparture) = dep.length := by
  rw [List.countP_cons_of_neg _ _ (by simp [hh0, ProcType.isDeparture])]
  rw [List.countP_append, List.countP_append, List.countP_append]
  rw [List.countP_eq_length.mpr (by intro l hl; simpa using hdep l hl)]
  rw [List.countP_eq_zero.mpr (by intro l hl; simp [hfree l hl, ProcType.isDeparture])]
  rw [List.countP_eq_zero.mpr
    (by intro l hl; simp [arrival_not_departure _ (harr l hl)])]
  rw [List.countP_eq_zero.mpr
    (by intro l hl; simp at hl; simp [hl, hhn, ProcType.isDeparture])]
  omega

/-- In a well-formed route the arrival-procedure legs are counted exactly by the arrival range. -/
theorem wf_countP_isArrival (h0 hn : RouteLeg) (dep free arr : List RouteLeg)
    (hh0 : h0.procType = ProcType.NONE) (hhn : hn.procType = ProcType.NONE)
    (hdep : ∀ l ∈ dep, l.procType.isDeparture = true)
    (hfree : ∀ l ∈ free, l.procType = ProcType.NONE)
    (harr : ∀ l ∈ arr, l.procType.isArrival = true) :
    (h0 :: (dep ++ free ++ arr ++ [hn])).countP
      (fun l => l.procType.isArrival) = arr.length := by
  rw [List.countP_cons_of_neg _ _ (by simp [hh0, ProcType.isArrival])]
  rw [List.countP_append, List.countP_append, List.countP_append]
  rw [List.countP_eq_zero.mpr
    (by intro l hl; simp [departure_not_arrival _ (hdep l hl)])]
  rw [List.countP_eq_zero.mpr (by intro l hl; simp [hfree l hl, ProcType.isArrival])]
  rw [List.countP_eq_length.mpr (by intro l hl; simpa using harr l hl)]
  rw [List.countP_eq_zero.mpr
    (by intro l hl; simp at hl; simp [hl, hhn, ProcType.isArrival])]
  omega

/-- In a well-formed route the leg at the first index after the departure procedure is a free leg. -/
theorem wf_getD_startIndex (legs : List RouteLeg) (hwf : RouteWellFormed legs) :
    (legs.getD (startIndexAfterProcedure legs) default).procType =
      ProcType.NONE := by
  obtain ⟨h0, dep, free, arr, hn, hL, hh0, hhn, hfreene, hdep, hfree, harr⟩ := hwf
  subst hL
  unfold startIndexAfterProcedure
  rw [wf_countP_isDeparture h0 hn dep free arr hh0 hhn hdep hfree harr]
  have hfreelen : 0 < free.length := List.length_pos.mpr hfreene
  by_cases hd : dep.length = 0
  · rw [if_pos hd]
    simpa using hh0
  · rw [if_neg hd]
    rw [List.getD_eq_getElem?_getD, List.getElem?_cons_succ]
    have e1 : (dep ++ free ++ arr ++ [hn])[dep.length]? =
        (dep ++ free ++ arr)[dep.length]? :=
      List.getElem?_append_left (by simp; omega)
    have e2 : (dep ++ free ++ arr)[dep.length]? = (dep ++ free)[dep.length]? :=
      List.getElem?_append_left (by simp; omega)
    have e3 : (dep ++ free)[dep.length]? = free[0]? := by
      rw [List.getElem?_append_right (le_refl _)]
      simp
    rw [e1, e2, e3, List.getElem?_eq_getElem hfreelen]
    exact hfree _ (List.getElem_mem hfreelen)

/-- In a well-formed route the leg at the last index before the arrival procedure is a free leg. -/
theorem wf_getD_destIndex (legs : List RouteLeg) (hwf : RouteWellFormed legs) :
    (legs.getD (destinationIndexBeforeProcedure legs) default).procType =
      ProcType.NONE := by
  obtain ⟨h0, dep, free, arr, hn, hL, hh0, hhn, hfreene, hdep, hfree, harr⟩ := hwf
  subst hL
  unfold destinationIndexBeforeProcedure
  rw [wf_countP_isArrival h0 hn dep free arr hh0 hhn hdep hfree harr]
  have hfreelen : 0 < free.length := List.length_pos.mpr hfreene
  have hlen : (h0 :: (dep ++ free ++ arr ++ [hn])).length =
      dep.length + free.length + arr.length + 2 := by
    simp
    omega
  by_cases ha : arr.length = 0
  · rw [if_pos ha]
    have harrnil : arr = [] := List.eq_nil_of_length_eq_zero ha
    subst harrnil
    rw [hlen]
    simp only [List.length_nil]
    have hidx : dep.length + free.length + 0 + 2 - 1 =
        (dep.length + free.length) + 1 := by omega
    rw [hidx]
    rw [List.getD_eq_getElem?_getD, List.getElem?_cons_succ]
    have e1 : (dep ++ free ++ [] ++ [hn])[dep.length + free.length]? =
        [hn][dep.length + free.length - (dep ++ free ++ []).length]? := by
      refine List.getElem?_append_right (by simp)
    rw [e1]
    simp [hhn]
  · rw [if_neg ha]
    rw [hlen]
    have hidx : dep.length + free.length + arr.length + 2 - arr.length - 2 =
        (dep.length + (free.length - 1)) + 1 := by omega
    rw [hidx]
    rw [List.getD_eq_getElem?_getD, List.getElem?_cons_succ]
    have e1 : (dep ++ free ++ arr ++ [hn])[dep.length + (free.length - 1)]? =
        (dep ++ free ++ arr)[dep.length + (free.length - 1)]? :=
      List.getElem?_append_left (by simp; omega)
    have e2 : (dep ++ free ++ arr)[dep.length + (free.length - 1)]? =
        (dep ++ free)[dep.length + (free.length - 1)]? :=
      List.getElem?_append_left (by simp; omega)
    have e3 : (dep ++ free)[dep.length + (free.length - 1)]? =
        free[free.length - 1]? := by
      rw [List.getElem?_append_right (by omega)]
      congr 1
      omega
    rw [e1, e2, e3, List.getElem?_eq_getElem (by omega)]
    exact hfree _ (List.getElem_mem (by omega))

/-- C10: for a selected-range calculation the effective endpoints are the clamped indices — the from-index raised to at least the first index after the departure procedure and the to-index lowered to at most the last index before the arrival procedure — and on a well-formed route whose selected rows are free legs, the departure and destination positions handed to the route finder are taken from legs that are not procedure-owned. -/
theorem calculateRoute_range_clamped (st : RouteState) (fromIndex toIndex : ℤ)
    (hwf : RouteWellFormed st.legs)
    (h0f : 0 ≤ fromIndex) (hfs : fromIndex < (st.legs.length : ℤ))
    (h0t : 0 ≤ toIndex) (hts : toIndex < (st.legs.length : ℤ))
    (hfp : (st.legs.getD fromIndex.toNat default).procType = ProcType.NONE)
    (htp : (st.legs.getD toIndex.toNat default).procType = ProcType.NONE) :
    ((startIndexAfterProcedure st.legs : ℤ) ≤ effectiveFromIndex st fromIndex) ∧
    (effectiveToIndex st toIndex ≤ (destinationIndexBeforeProcedure st.legs : ℤ)) ∧
    (st.legs.getD (effectiveFromIndex st fromIndex).toNat default).procType =
      ProcType.NONE ∧
    (st.legs.getD (effectiveToIndex st toIndex).toNat default).procType =
      ProcType.NONE ∧
    calcDeparturePos st fromIndex toIndex =
      (st.legs.getD (effectiveFromIndex st fromIndex).toNat default).pos ∧
    calcDestinationPos st fromIndex toIndex =
      (st.legs.getD (effectiveToIndex st toIndex).toNat default).pos := by
  refine ⟨le_max_left _ _, min_le_left _ _, ?_, ?_, ?_, ?_⟩
  · unfold effectiveFromIndex
    rcases le_total (startIndexAfterProcedure st.legs : ℤ) fromIndex with hle | hle
    · rw [max_eq_right hle]
      exact hfp
    · rw [max_eq_left hle]
      have htn : ((startIndexAfterProcedure st.legs : ℤ)).toNat =
          startIndexAfterProcedure st.legs := by omega
      rw [htn]
      exact wf_getD_startIndex st.legs hwf
  · unfold effectiveToIndex
    rcases le_total toIndex (destinationIndexBeforeProcedure st.legs : ℤ) with hle | hle
    · rw [min_eq_right hle]
      exact htp
    · rw [min_eq_left hle]
      have htn : ((destinationIndexBeforeProcedure st.legs : ℤ)).toNat =
          destinationIndexBeforeProcedure st.legs := by omega
      rw [htn]
      exact wf_getD_destIndex st.legs hwf
  · unfold calcDeparturePos
    rw [if_pos ⟨by omega, by omega⟩]
  · unfold calcDestinationPos
    rw [if_pos ⟨by omega, by omega⟩]

/-- Closed instance of calculateRoute_range_clamped on a route with one SID and one STAR leg, selecting rows 0 and 5: both clamped endpoints land on free legs. -/
theorem calculateRoute_range_clamped_witness :
    ((startIndexAfterProcedure wfRouteState.legs : ℤ) ≤
      effectiveFromIndex wfRouteState 0) ∧
    (wfRouteState.legs.getD (effectiveFromIndex wfRouteState 0).toNat
        default).procType = ProcType.NONE ∧
    (wfRouteState.legs.getD (effectiveToIndex wfRouteState 5).toNat
        default).procType = ProcType.NONE := by
  have hwf : RouteWellFormed wfRouteState.legs :=
    ⟨⟨"AAAA", (0, 0), true, ProcType.NONE⟩,
      [⟨"SID1", (1, 0), false, ProcType.SID⟩],
      [⟨"WONE", (2, 0), false, ProcType.NONE⟩, ⟨"WTWO", (3, 0), false, ProcType.NONE⟩],
      [⟨"STAR", (4, 0), false, ProcType.STAR⟩],
      ⟨"BBBB", (5, 0), true, ProcType.NONE⟩,
      by decide, by decide, by decide, by decide, by decide, by decide, by decide⟩
  exact ⟨(calculateRoute_range_clamped wfRouteState 0 5 hwf (by decide) (by decide)
      (by decide) (by decide) (by decide) (by decide)).1,
    (calculateRoute_range_clamped wfRouteState 0 5 hwf (by decide) (by decide)
      (by decide) (by decide) (by decide) (by decide)).2.2.1,
    (calculateRoute_range_clamped wfRouteState 0 5 hwf (by decide) (by decide)
      (by decide) (by decide) (by decide) (by decide)).2.2.2.1⟩
